import Mathlib

/-!
Verification of the reconnecting SignalR streaming client (`fj_client`).

The definitions below are a shallow embedding of the Python source:
  * `src/fj_client/utils.py`   — the frame codec (`extract_json_from_jsonp`,
    `parse_signalr_frame`, both built on the regex `(\x7b.*?\x7d|\[.*?\])`
    with `re.DOTALL`, i.e. a *lazy* scan to the first closing delimiter);
  * `src/fj_client/client.py`  — `do_negotiate`, and the `SignalRClient`
    state machine (`on_open`, `on_message`, `on_error`, `on_close`,
    `_schedule_reconnect`, `start`, `stop`).
Python strings are modelled as `List Char`; Python floats as `ℚ`;
`json.loads` as an executable fuel-indexed JSON parser; raised exceptions
as `Except` / explicit result fields.
-/

namespace FJ

/-! ## The regex `JSON_RE = (\x7b.*?\x7d|\[.*?\])` (utils.py line 8)

Python's `re` with a lazy `.*?` matches, at the leftmost position whose
character is `\x7b` (resp. `[`), up to the *first* following `\x7d`
(resp. `]`).  `findall` restarts after the end of each match; `search`
returns the first match only. -/

/-- Scan for the first occurrence of `close`; return the consumed prefix
(ending with `close`) and the remainder, or `none` if absent.  This is the
lazy `.*?close` part of the regex. -/
def splitAtClose (close : Char) : List Char → Option (List Char × List Char)
  | [] => none
  | c :: cs =>
    if c = close then some ([c], cs)
    else
      match splitAtClose close cs with
      | some (pre, rest) => some (c :: pre, rest)
      | none => none

/-- One attempt of the regex alternation at the current position: an
object-looking chunk `\x7b.*?\x7d` or an array-looking chunk `[.*?]`. -/
def reMatchAt : List Char → Option (List Char × List Char)
  | [] => none
  | c :: cs =>
    if c = '{' then
      match splitAtClose '}' cs with
      | some (pre, rest) => some (c :: pre, rest)
      | none => none
    else if c = '[' then
      match splitAtClose ']' cs with
      | some (pre, rest) => some (c :: pre, rest)
      | none => none
    else none

theorem splitAtClose_length {close : Char} :
    ∀ {l pre rest : List Char}, splitAtClose close l = some (pre, rest) →
      pre.length + rest.length = l.length ∧ pre ≠ [] := by
  intro l
  induction l with
  | nil => intro pre rest h; simp [splitAtClose] at h
  | cons c cs ih =>
    intro pre rest h
    by_cases hc : c = close
    · simp [splitAtClose, hc] at h
      obtain ⟨h1, h2⟩ := h
      subst h1; subst h2
      simp [Nat.add_comm]
    · simp only [splitAtClose, if_neg hc] at h
      cases hsp : splitAtClose close cs with
      | none => rw [hsp] at h; simp at h
      | some pr =>
        rw [hsp] at h
        simp at h
        obtain ⟨h1, h2⟩ := h
        have hws : splitAtClose close cs = some (pr.1, pr.2) := by rw [hsp]
        obtain ⟨hl, hne⟩ := ih hws
        subst h2
        rw [← h1]
        constructor
        · simp [← hl]; omega
        · simp

theorem reMatchAt_length : ∀ {l m rest : List Char},
    reMatchAt l = some (m, rest) → rest.length < l.length := by
  intro l m rest h
  cases l with
  | nil => simp [reMatchAt] at h
  | cons c cs =>
    by_cases h1 : c = '{'
    · simp only [reMatchAt, if_pos h1] at h
      cases hsp : splitAtClose '}' cs with
      | none => rw [hsp] at h; simp at h
      | some pr =>
        rw [hsp] at h; simp at h
        have hws : splitAtClose '}' cs = some (pr.1, pr.2) := by rw [hsp]
        obtain ⟨hl, hne⟩ := splitAtClose_length hws
        have : pr.1.length ≠ 0 := by simpa using List.length_pos.mpr hne |>.ne'
        simp [← h.2, List.length_cons, ← hl]
        omega
    · by_cases h2 : c = '['
      · simp only [reMatchAt, if_neg h1, if_pos h2] at h
        cases hsp : splitAtClose ']' cs with
        | none => rw [hsp] at h; simp at h
        | some pr =>
          rw [hsp] at h; simp at h
          have hws : splitAtClose ']' cs = some (pr.1, pr.2) := by rw [hsp]
          obtain ⟨hl, hne⟩ := splitAtClose_length hws
          have : pr.1.length ≠ 0 := by simpa using List.length_pos.mpr hne |>.ne'
          simp [← h.2, List.length_cons, ← hl]
          omega
      · simp [reMatchAt, if_neg h1, if_neg h2] at h

/-- Fuel-indexed scan for all successive non-overlapping lazy matches
(the fuel is only a structural-recursion device; `reFindAllFuel_stable`
shows any sufficient fuel gives the same answer). -/
def reFindAllFuel : ℕ → List Char → List (List Char)
  | 0, _ => []
  | fuel + 1, l =>
    match reMatchAt l with
    | some (m, rest) => m :: reFindAllFuel fuel rest
    | none =>
      match l with
      | [] => []
      | _ :: cs => reFindAllFuel fuel cs

/-- `JSON_RE.findall`: all successive non-overlapping lazy matches. -/
def reFindAll (l : List Char) : List (List Char) :=
  reFindAllFuel (l.length + 1) l

theorem reFindAllFuel_succ (fuel : ℕ) (l : List Char) :
    reFindAllFuel (fuel + 1) l =
      match reMatchAt l with
      | some (m, rest) => m :: reFindAllFuel fuel rest
      | none =>
        match l with
        | [] => []
        | _ :: cs => reFindAllFuel fuel cs := rfl

theorem reFindAllFuel_stable :
    ∀ (fuel : ℕ) (l : List Char), l.length < fuel →
      reFindAllFuel fuel l = reFindAllFuel (l.length + 1) l := by
  intro fuel
  induction fuel using Nat.strong_induction_on with
  | _ fuel ih =>
    intro l hl
    cases fuel with
    | zero => omega
    | succ f =>
      cases l with
      | nil => rfl
      | cons c cs =>
        have hf : cs.length < f := by
          simp only [List.length_cons] at hl; omega
        have hlen : (c :: cs).length + 1 = cs.length + 1 + 1 := by simp
        rw [reFindAllFuel_succ, hlen, reFindAllFuel_succ]
        cases hm : reMatchAt (c :: cs) with
        | some p =>
          obtain ⟨m, rest⟩ := p
          have hrest : rest.length < cs.length + 1 := by
            simpa using reMatchAt_length hm
          simp only [hm]
          rw [ih f (by omega) rest (by omega),
              ih (cs.length + 1) (by omega) rest (by omega)]
        | none =>
          simp only [hm]
          rw [ih f (by omega) cs (by omega)]

/-- Unfolding equation: a match at the head is emitted and the scan
resumes after it. -/
theorem reFindAll_eq_match {l m rest : List Char}
    (h : reMatchAt l = some (m, rest)) :
    reFindAll l = m :: reFindAll rest := by
  cases l with
  | nil => simp [reMatchAt] at h
  | cons c cs =>
    have hrest : rest.length < cs.length + 1 := by
      simpa using reMatchAt_length h
    have hlen : (c :: cs).length + 1 = cs.length + 1 + 1 := by simp
    unfold reFindAll
    rw [hlen, reFindAllFuel_succ]
    simp only [h]
    rw [reFindAllFuel_stable (cs.length + 1) rest (by omega)]

/-- Unfolding equation: a position with no match is skipped. -/
theorem reFindAll_eq_skip {c : Char} {cs : List Char}
    (h : reMatchAt (c :: cs) = none) :
    reFindAll (c :: cs) = reFindAll cs := by
  have hlen : (c :: cs).length + 1 = cs.length + 1 + 1 := by simp
  unfold reFindAll
  rw [hlen, reFindAllFuel_succ]
  simp only [h]

/-- `JSON_RE.search`: the first lazy match, if any. -/
def reSearch : List Char → Option (List Char)
  | [] => none
  | c :: cs =>
    match reMatchAt (c :: cs) with
    | some (m, _) => some m
    | none => reSearch cs

/-! ## `extract_json_from_jsonp` (utils.py lines 11-23) -/

/-- Characters removed by Python's `str.strip()` (the ASCII ones). -/
def pySpace (c : Char) : Bool :=
  c = ' ' ∨ c = '\t' ∨ c = '\n' ∨ c = '\r' ∨ c = '\x0b' ∨ c = '\x0c'

/-- Python `text.strip()`. -/
def pyStrip (s : List Char) : List Char :=
  ((s.dropWhile pySpace).reverse.dropWhile pySpace).reverse

/-- The suffix after the first occurrence of `c` (Python
`text[text.index(c)+1:]`); the whole list if `c` is absent. -/
def afterChar (c : Char) : List Char → List Char
  | [] => []
  | x :: xs => if x = c then xs else afterChar c xs

/-- `extract_json_from_jsonp` from utils.py:
strip; if `"(" in text and text.endswith(")")` then return the slice
between the first `(` and the last `)` (which, given the `endswith`, is
the final character, so the slice is `afterChar '(' t` minus its last
element); otherwise return the first regex match, if any. -/
def extract_json_from_jsonp (text : List Char) : Option (List Char) :=
  if '(' ∈ pyStrip text ∧ (pyStrip text).reverse.head? = some ')' then
    some ((afterChar '(' (pyStrip text)).dropLast)
  else
    reSearch (pyStrip text)

/-! ## `json.loads` model

An executable JSON parser over `List Char`, modelling CPython's
`json.loads` on its standard grammar: objects, arrays, double-quoted
strings with escapes, numbers (as exact rationals), `true`/`false`/`null`,
the four JSON whitespace characters.  (The non-standard `NaN`/`Infinity`
literals accepted by CPython are not modelled; no claim involves them.) -/

inductive Json where
  | null : Json
  | bool : Bool → Json
  | num : ℚ → Json
  | str : List Char → Json
  | arr : List Json → Json
  | obj : List (List Char × Json) → Json

/-- JSON whitespace accepted between tokens by `json.loads`. -/
def jsonWs (c : Char) : Bool :=
  c = ' ' ∨ c = '\t' ∨ c = '\n' ∨ c = '\r'

def skipWs (s : List Char) : List Char := s.dropWhile jsonWs

def hexVal (c : Char) : Option ℕ :=
  if '0' ≤ c ∧ c ≤ '9' then some (c.toNat - '0'.toNat)
  else if 'a' ≤ c ∧ c ≤ 'f' then some (c.toNat - 'a'.toNat + 10)
  else if 'A' ≤ c ∧ c ≤ 'F' then some (c.toNat - 'A'.toNat + 10)
  else none

def isDigit (c : Char) : Bool := '0' ≤ c ∧ c ≤ '9'

def digitVal (c : Char) : ℕ := c.toNat - '0'.toNat

def digitsToNat (ds : List Char) : ℕ :=
  ds.foldl (fun acc c => 10 * acc + digitVal c) 0

/-- Parse the body of a JSON string after the opening quote; strict mode
(unescaped control characters rejected), standard escapes, `\uXXXX`
(surrogate pairing not recombined; no claim inspects such strings). -/
def parseStringBody : ℕ → List Char → Option (List Char × List Char)
  | 0, _ => none
  | _ + 1, [] => none
  | fuel + 1, c :: cs =>
    if c = '"' then some ([], cs)
    else if c = '\\' then
      match cs with
      | [] => none
      | e :: cs' =>
        if e = '"' ∨ e = '\\' ∨ e = '/' then
          match parseStringBody fuel cs' with
          | some (body, rest) => some (e :: body, rest)
          | none => none
        else if e = 'b' ∨ e = 'f' ∨ e = 'n' ∨ e = 'r' ∨ e = 't' then
          let esc : Char :=
            if e = 'b' then '\x08' else if e = 'f' then '\x0c'
            else if e = 'n' then '\n' else if e = 'r' then '\r' else '\t'
          match parseStringBody fuel cs' with
          | some (body, rest) => some (esc :: body, rest)
          | none => none
        else if e = 'u' then
          match cs' with
          | h1 :: h2 :: h3 :: h4 :: cs'' =>
            match hexVal h1, hexVal h2, hexVal h3, hexVal h4 with
            | some a, some b, some c1, some d =>
              let n := ((a * 16 + b) * 16 + c1) * 16 + d
              match parseStringBody fuel cs'' with
              | some (body, rest) => some (Char.ofNat n :: body, rest)
              | none => none
            | _, _, _, _ => none
          | _ => none
        else none
    else if c.toNat < 32 then none
    else
      match parseStringBody fuel cs with
      | some (body, rest) => some (c :: body, rest)
      | none => none

/-- Parse a JSON number: `-?(0|[1-9][0-9]*)(.[0-9]+)?([eE][+-]?[0-9]+)?`,
valued exactly in `ℚ`. -/
def parseNumber (s : List Char) : Option (ℚ × List Char) :=
  let (neg, s1) : Bool × List Char :=
    match s with
    | '-' :: rest => (true, rest)
    | _ => (false, s)
  let intDs := s1.takeWhile isDigit
  let s2 := s1.dropWhile isDigit
  if intDs = [] then none
  else if 1 < intDs.length ∧ intDs.head? = some '0' then none
  else
    let ipart : ℚ := (digitsToNat intDs : ℚ)
    let (fq, s3) : ℚ × List Char :=
      match s2 with
      | '.' :: rest =>
        let fds := rest.takeWhile isDigit
        if fds = [] then (0, s2)
        else ((digitsToNat fds : ℚ) / ((10 : ℚ) ^ fds.length), rest.dropWhile isDigit)
      | _ => (0, s2)
    -- a dot with no digits is a parse error in json.loads
    let dotBad : Bool :=
      match s2 with
      | '.' :: rest => (rest.takeWhile isDigit) = []
      | _ => false
    if dotBad then none
    else
      let mag : ℚ := ipart + fq
      match s3 with
      | e :: rest =>
        if e = 'e' ∨ e = 'E' then
          let (eneg, r1) : Bool × List Char :=
            match rest with
            | '-' :: r => (true, r)
            | '+' :: r => (false, r)
            | _ => (false, rest)
          let eds := r1.takeWhile isDigit
          if eds = [] then none
          else
            let ex := digitsToNat eds
            let scaled := if eneg then mag / ((10 : ℚ) ^ ex) else mag * ((10 : ℚ) ^ ex)
            some (if neg then -scaled else scaled, r1.dropWhile isDigit)
        else some (if neg then -mag else mag, s3)
      | [] => some (if neg then -mag else mag, [])

/-- The three recursion modes of the JSON parser: a value, the members
of a (non-empty) object with the members already read, or the items of a
(non-empty) array with the items already read.  A single fuel-indexed
function keeps the recursion structural, so that the parser reduces
inside the kernel. -/
inductive PMode where
  | value : PMode
  | members : List (List Char × Json) → PMode
  | items : List Json → PMode

/-- Parse one JSON value / object tail / array tail. -/
def parseJ : ℕ → PMode → List Char → Option (Json × List Char)
  | 0, _, _ => none
  | fuel + 1, .members acc, s =>
    (match skipWs s with
    | '"' :: cs =>
      match parseStringBody (cs.length + 1) cs with
      | some (key, rest) =>
        match skipWs rest with
        | ':' :: rest2 =>
          match parseJ fuel .value rest2 with
          | some (v, rest3) =>
            match skipWs rest3 with
            | ',' :: rest4 => parseJ fuel (.members (acc ++ [(key, v)])) rest4
            | '}' :: rest4 => some (.obj (acc ++ [(key, v)]), rest4)
            | _ => none
          | none => none
        | _ => none
      | none => none
    | _ => none)
  | fuel + 1, .items acc, s =>
    (match parseJ fuel .value s with
    | some (v, rest) =>
      match skipWs rest with
      | ',' :: rest2 => parseJ fuel (.items (acc ++ [v])) rest2
      | ']' :: rest2 => some (.arr (acc ++ [v]), rest2)
      | _ => none
    | none => none)
  | fuel + 1, .value, s =>
    match skipWs s with
    | [] => none
    | c :: cs =>
      if c = '{' then
        match skipWs cs with
        | '}' :: rest => some (.obj [], rest)
        | _ => parseJ fuel (.members []) cs
      else if c = '[' then
        match skipWs cs with
        | ']' :: rest => some (.arr [], rest)
        | _ => parseJ fuel (.items []) cs
      else if c = '"' then
        match parseStringBody (cs.length + 1) cs with
        | some (body, rest) => some (.str body, rest)
        | none => none
      else if c = 't' then
        match cs with
        | 'r' :: 'u' :: 'e' :: rest => some (.bool true, rest)
        | _ => none
      else if c = 'f' then
        match cs with
        | 'a' :: 'l' :: 's' :: 'e' :: rest => some (.bool false, rest)
        | _ => none
      else if c = 'n' then
        match cs with
        | 'u' :: 'l' :: 'l' :: rest => some (.null, rest)
        | _ => none
      else if c = '-' ∨ isDigit c then
        match parseNumber (c :: cs) with
        | some (q, rest) => some (.num q, rest)
        | none => none
      else none

/-- `json.loads`: whole-input parse, trailing whitespace only. -/
def jsonParse (s : List Char) : Option Json :=
  match parseJ (2 * s.length + 8) .value s with
  | some (v, rest) => if skipWs rest = [] then some v else none
  | none => none

/-! ## `parse_signalr_frame` (utils.py lines 26-35) -/

/-- One loop iteration of `parse_signalr_frame`: `json.loads(it)` with
fallback `\x7b"raw": it\x7d` when parsing raises. -/
def decodeFragment (it : List Char) : Json :=
  match jsonParse it with
  | some v => v
  | none => Json.obj [(['r', 'a', 'w'], Json.str it)]

/-- `parse_signalr_frame`: every regex match, parsed or kept raw. -/
def parse_signalr_frame (raw : List Char) : List Json :=
  (reFindAll raw).map decodeFragment

/-! ## Python semantics helpers for the client -/

/-- Python exceptions that the client code can raise. -/
inductive PyError where
  | runtimeError : List Char → PyError
  | jsonDecodeError : PyError
  | attributeError : PyError
deriving DecidableEq, Repr

/-- `dict.get` with last-occurrence-wins (duplicate keys in a JSON text
overwrite earlier ones in CPython's dict). -/
def objGet (kvs : List (List Char × Json)) (k : List Char) : Option Json :=
  match kvs with
  | [] => none
  | (k1, v) :: rest =>
    match objGet rest k with
    | some r => some r
    | none => if k1 = k then some v else none

/-- Python truthiness of a decoded JSON value. -/
def pyTruthy : Json → Bool
  | .null => false
  | .bool b => b
  | .num q => decide (q ≠ 0)
  | .str s => !s.isEmpty
  | .arr xs => !xs.isEmpty
  | .obj kvs => !kvs.isEmpty

/-- Truthiness of an `Optional` value (`None` is falsy). -/
def pyTruthyOpt : Option Json → Bool
  | none => false
  | some v => pyTruthy v

def exceptIsOk {e a : Type} : Except e a → Bool
  | .ok _ => true
  | .error _ => false

/-! ## `do_negotiate` (client.py lines 27-59)

The HTTP layer is abstracted to the final response the server returned:
its status code and body text.  (Transport-level retries performed by the
urllib3 `Retry` adapter happen below this interface and only change which
response is final.) -/

/-- The `RuntimeError` message of the non-200 branch:
`f"negotiate failed: \x7bresp.status_code\x7d \x7bresp.text[:300]\x7d"`. -/
def negotiateFailMsg (status : ℕ) (text : List Char) : List Char :=
  (toString status).data ++ [' '] ++ text.take 300

/-- `do_negotiate`: raise on `status_code != 200`; extract a payload from
the (possibly JSONP-wrapped) body; `if not body: raise`; `json.loads` it. -/
def do_negotiate (status : ℕ) (text : List Char) : Except PyError Json :=
  if status ≠ 200 then
    .error (.runtimeError ("negotiate failed: ".data ++ negotiateFailMsg status text))
  else
    match extract_json_from_jsonp text with
    | none => .error (.runtimeError "negotiate: cannot extract JSON from response".data)
    | some body =>
      if body.isEmpty then
        .error (.runtimeError "negotiate: cannot extract JSON from response".data)
      else
        match jsonParse body with
        | none => .error .jsonDecodeError
        | some j => .ok j

/-- The primary token field name `"ConnectionToken"`. -/
def ctKey : List Char := "ConnectionToken".data

/-- The fallback token field name `"ConnectionId"`. -/
def cidKey : List Char := "ConnectionId".data

/-- Token extraction in `SignalRClient.start` (client.py lines 287-289):
`conn_token = n.get("ConnectionToken") or n.get("ConnectionId")`, then
`if not conn_token: raise RuntimeError(...)`.  Calling `.get` on a
non-dict raises `AttributeError`. -/
def start_token (n : Json) : Except PyError Json :=
  match n with
  | .obj kvs =>
    match (if pyTruthyOpt (objGet kvs ctKey) then objGet kvs ctKey
      else objGet kvs cidKey) with
    | some v =>
      if pyTruthy v then .ok v
      else .error (.runtimeError "negotiate response missing ConnectionToken".data)
    | none => .error (.runtimeError "negotiate response missing ConnectionToken".data)
  | _ => .error .attributeError

/-- `do_negotiate` followed by the token extraction in `start`. -/
def negotiate_token (status : ℕ) (text : List Char) : Except PyError Json :=
  (do_negotiate status text).bind start_token

/-- The claim's stated success condition (C1, spec wording): 2xx status,
a payload extractable and decodable as JSON, and a connection-token field
present under one of the two accepted names. -/
def claimC1_spec (status : ℕ) (text : List Char) : Bool :=
  (decide (200 ≤ status) && decide (status < 300)) &&
    match extract_json_from_jsonp text with
    | none => false
    | some body =>
      match jsonParse body with
      | none => false
      | some j =>
        match j with
        | .obj kvs =>
          (objGet kvs ctKey).isSome || (objGet kvs cidKey).isSome
        | _ => false

/-- The success condition the code actually implements: status exactly
200, a nonempty extracted payload that parses as a JSON object, and a
truthy value under `ConnectionToken` or (as fallback) `ConnectionId`. -/
def negotiateSuccessSpec (status : ℕ) (text : List Char) : Bool :=
  decide (status = 200) &&
    match extract_json_from_jsonp text with
    | none => false
    | some body =>
      !body.isEmpty &&
        match jsonParse body with
        | none => false
        | some j =>
          match j with
          | .obj kvs =>
            pyTruthyOpt (objGet kvs ctKey) || pyTruthyOpt (objGet kvs cidKey)
          | _ => false

/-! ## Backoff arithmetic of `_schedule_reconnect` (client.py lines 226-228)

Python floats are modelled as exact rationals; `random.uniform(0, x)`
as an arbitrary jitter `j` with `0 ≤ j ≤ x`. -/

/-- `base_delay = min(self.max_backoff, self.backoff_base * (2 ** self._retries))`. -/
def baseDelay (maxBackoff backoffBase : ℚ) (retries : ℕ) : ℚ :=
  min maxBackoff (backoffBase * 2 ^ retries)

/-- `delay = min(self.max_backoff, base_delay + jitter)`. -/
def reconnectDelay (maxBackoff backoffBase : ℚ) (retries : ℕ) (jitter : ℚ) : ℚ :=
  min maxBackoff (baseDelay maxBackoff backoffBase retries + jitter)

/-! ## The `SignalRClient` supervisor state (client.py lines 62-373)

Mutable instance fields relevant to the lifecycle claims.  `wsPresent`
models `self.ws is not None`; `reconnectLockHeld` models the
non-blocking `_reconnect_lock`; `sessionClosed` models whether
`self.session.close()` has been called. -/

structure ClientState where
  stopFlag : Bool
  connected : Bool
  connectedEvt : Bool
  retries : ℕ
  maxRetries : ℕ
  reconnectLockHeld : Bool
  retryAttempted : Bool
  wsPresent : Bool
  sessionClosed : Bool
deriving DecidableEq, Repr

/-- `on_open` (lines 162-171): set the event and `connected`, clear
`retry_attempted`, reset `_retries` to 0. -/
def on_open (s : ClientState) : ClientState :=
  { s with connectedEvt := true, connected := true,
           retryAttempted := false, retries := 0 }

inductive ScheduleOutcome where
  | skippedStopped
  | skippedPending
  | gaveUp
  | scheduled
deriving DecidableEq, Repr

/-- `_schedule_reconnect` (lines 204-269): return if `_stop`; return if
the non-blocking lock acquisition fails (a reconnection is already
pending); if `_retries >= max_retries` log give-up and release the lock
(net state unchanged); otherwise increment `_retries` (before any sleep)
and hold the lock while the backoff thread is pending. -/
def schedule_reconnect (s : ClientState) : ClientState × ScheduleOutcome :=
  if s.stopFlag then (s, .skippedStopped)
  else if s.reconnectLockHeld then (s, .skippedPending)
  else if s.maxRetries ≤ s.retries then (s, .gaveUp)
  else ({ s with retries := s.retries + 1, reconnectLockHeld := true }, .scheduled)

/-- `on_error` (lines 186-189): log, then `_schedule_reconnect`. -/
def on_error (s : ClientState) : ClientState × ScheduleOutcome :=
  schedule_reconnect s

/-- `on_close` (lines 191-202): clear the event and `connected`, then
`_schedule_reconnect`. -/
def on_close (s : ClientState) : ClientState × ScheduleOutcome :=
  schedule_reconnect { s with connectedEvt := false, connected := false }

/-- `stop` (lines 352-373): set `_stop`, clear the event, close and drop
the ws (`ws.close()` wrapped in try/except, `ws = None` in a finally),
join the ws thread (bounded 2s), close the HTTP session (try/except).
`closeRaises` / `sessionCloseRaises` model the underlying objects
raising on close; both are swallowed, so the result never depends on
them and `stop` raises nothing. -/
def stop_run (closeRaises sessionCloseRaises : Bool) (s : ClientState) :
    ClientState × Option PyError :=
  let s1 := { s with stopFlag := true, connectedEvt := false }
  let s2 :=
    if s1.wsPresent then
      if closeRaises then { s1 with wsPresent := false }
      else { s1 with wsPresent := false }
    else s1
  let s3 :=
    if sessionCloseRaises then { s2 with sessionClosed := true }
    else { s2 with sessionClosed := true }
  (s3, none)

/-- The backoff thread body `_do` (lines 237-265), resumed at the end of
the `time.sleep(delay)`: if `_stop` was set during the sleep, do not call
`start()`; either way release `_reconnect_lock` in the `finally`.
`startRun` is the effect of the nested `self.start()` call; the returned
Bool records whether `start()` (and hence a negotiate request) ran. -/
def reconnect_fire (s : ClientState) (startRun : ClientState → ClientState) :
    ClientState × Bool :=
  -- the pre-sleep `self.ws.close()` (wrapped in try/except) does not
  -- assign `self.ws = None`, so `wsPresent` is unchanged here
  if s.stopFlag then ({ s with reconnectLockHeld := false }, false)
  else ({ startRun s with reconnectLockHeld := false }, true)

/-! ## `SignalRClient.start` (client.py lines 271-350)

The environment of one `start()` execution: the outcome of the negotiate
HTTP exchange (already folded through `do_negotiate`), whether the
WebSocket `on_open` fired within the 5-second `connected_evt.wait`, and
the outcome of the confirmatory `/signalr/start` GET (status code, or a
raised transport error). -/

structure StartEnv where
  negotiateResult : Except PyError Json
  opensInTime : Bool
  startCallResult : Except PyError ℕ

/-- How the `start()` call returned. -/
inductive StartExit where
  | exnLogged : PyError → StartExit
  | openTimeout : StartExit
  | loopExit : StartExit
deriving DecidableEq, Repr

structure StartResult where
  state : ClientState
  /-- whether `start` invoked `_schedule_reconnect` anywhere: the source
  of `start` contains no such call, so this is `false` on every path. -/
  scheduledReconnect : Bool
  /-- reached the point after a non-raising confirmatory start call
  (the spec's `Live`: `Open` + start-confirmed). -/
  liveConfirmed : Bool
  exit : StartExit

/-- `start()` under `_start_mutex`: reset `retry_attempted`, clear the
event, negotiate, extract the token, `open_ws` (sets `self.ws`), wait up
to 5s for `on_open`; on timeout close and drop the ws and return; then
issue the confirmatory start GET (status only logged, never checked) and
enter the keep-alive loop.  Every raising step is inside the
`except Exception` at lines 348-350, which logs and returns — no path
calls `_schedule_reconnect`. -/
def start_run (env : StartEnv) (s : ClientState) : StartResult :=
  let s0 := { s with retryAttempted := false, connectedEvt := false }
  match env.negotiateResult with
  | .error e => ⟨s0, false, false, .exnLogged e⟩
  | .ok n =>
    match start_token n with
    | .error e => ⟨s0, false, false, .exnLogged e⟩
    | .ok _tok =>
      let s1 := { s0 with wsPresent := true, connectedEvt := false }
      if env.opensInTime then
        -- `on_open` ran on the ws thread before the wait returned
        let s2 := on_open s1
        match env.startCallResult with
        | .error e => ⟨s2, false, false, .exnLogged e⟩
        | .ok _status => ⟨s2, false, true, .loopExit⟩
      else
        ⟨{ s1 with wsPresent := false }, false, false, .openTimeout⟩

/-- A reconnection attempt that fails at the handshake: one
`_schedule_reconnect` (if it schedules) followed by the backoff thread
running `start()` against a negotiate error.  Used to model "maxRetries
consecutive failed attempts with no intervening open". -/
def failedAttempt (s : ClientState) : ClientState :=
  let p := schedule_reconnect s
  if p.2 = ScheduleOutcome.scheduled then
    (reconnect_fire p.1 (fun t =>
      (start_run ⟨.error (.runtimeError "boom".data), false,
        .error (.runtimeError "boom".data)⟩ t).state)).1
  else p.1

/-! ## `on_message` (client.py lines 173-184)

`item = json.loads(message)` is *outside* any try/except (a decode error
escapes the callback); the `json.dumps` preview is inside its own
try/except; the handler call is guarded by
`if self.handler and isinstance(item, dict)` and wrapped in a try/except
that logs (`log.exception`) and swallows the handler's exception. -/

structure MsgResult where
  /-- exception escaping `on_message` (only a decode error can). -/
  escaped : Option PyError
  /-- the arguments passed to `handler.handle`, in call order. -/
  dispatched : List Json
  /-- whether the `[handler error]` log line ran. -/
  handlerErrorLogged : Bool
  /-- whether the `[ws message]` debug log line ran. -/
  logged : Bool

def isObj : Json → Bool
  | .obj _ => true
  | _ => false

/-- `on_message` with an optional handler whose `handle` may raise. -/
def on_message (handler : Option (Json → Except (List Char) Unit))
    (message : List Char) : MsgResult :=
  match jsonParse message with
  | none => ⟨some .jsonDecodeError, [], false, false⟩
  | some item =>
    match handler with
    | none => ⟨none, [], false, true⟩
    | some h =>
      if isObj item then
        match h item with
        | .ok _ => ⟨none, [item], false, true⟩
        | .error _ => ⟨none, [item], true, true⟩
      else ⟨none, [], false, true⟩

/-! ## Codec lemmas -/

theorem dropWhile_head_not {p : Char → Bool} {l : List Char}
    (h : ∀ c, l.head? = some c → p c = false) : l.dropWhile p = l := by
  cases l with
  | nil => rfl
  | cons a l => rw [List.dropWhile_cons, h a rfl]; simp

theorem pyStrip_eq_self {l : List Char}
    (h1 : ∀ c, l.head? = some c → pySpace c = false)
    (h2 : ∀ c, l.reverse.head? = some c → pySpace c = false) :
    pyStrip l = l := by
  unfold pyStrip
  rw [dropWhile_head_not h1, dropWhile_head_not h2, List.reverse_reverse]

theorem afterChar_of_not_mem {c : Char} :
    ∀ {pre : List Char}, (∀ x ∈ pre, x ≠ c) → ∀ rest : List Char,
      afterChar c (pre ++ c :: rest) = rest := by
  intro pre
  induction pre with
  | nil => intro _ rest; simp [afterChar]
  | cons a l ih =>
    intro h rest
    have ha : a ≠ c := h a (by simp)
    simp only [List.cons_append, afterChar, if_neg ha]
    exact ih (fun x hx => h x (by simp [hx])) rest

theorem splitAtClose_of_not_mem {close : Char} :
    ∀ {pre : List Char}, close ∉ pre → ∀ rest : List Char,
      splitAtClose close (pre ++ close :: rest) = some (pre ++ [close], rest) := by
  intro pre
  induction pre with
  | nil => intro _ rest; simp [splitAtClose]
  | cons a l ih =>
    intro h rest
    have ha : a ≠ close := by intro he; exact h (by simp [he])
    have hrec := ih (fun hm => h (by simp [hm])) rest
    simp only [List.cons_append, splitAtClose, if_neg ha]
    simp [hrec]

/-- A flat fragment: the first closing delimiter of the opening kind is
the final character — exactly the shape the lazy regex matches whole. -/
def FragOk (f : List Char) : Prop :=
  (∃ inner, f = '{' :: (inner ++ ['}']) ∧ '}' ∉ inner) ∨
  (∃ inner, f = '[' :: (inner ++ [']']) ∧ ']' ∉ inner)

/-- Noise that can never start a regex match. -/
def NoiseOk (n : List Char) : Prop := '{' ∉ n ∧ '[' ∉ n

theorem reMatchAt_noise {c : Char} (h1 : c ≠ '{') (h2 : c ≠ '[')
    (cs : List Char) : reMatchAt (c :: cs) = none := by
  simp [reMatchAt, h1, h2]

theorem reMatchAt_frag {f : List Char} (hf : FragOk f) (rest : List Char) :
    reMatchAt (f ++ rest) = some (f, rest) := by
  rcases hf with ⟨inner, he, hni⟩ | ⟨inner, he, hni⟩ <;> subst he
  · have hshape : ('{' :: (inner ++ ['}'])) ++ rest =
        '{' :: (inner ++ '}' :: rest) := by simp
    rw [hshape]
    simp only [reMatchAt, if_pos rfl]
    rw [splitAtClose_of_not_mem hni rest]
    simp
  · have hshape : ('[' :: (inner ++ [']'])) ++ rest =
        '[' :: (inner ++ ']' :: rest) := by simp
    rw [hshape]
    have hne : ¬ ('[' : Char) = '{' := by decide
    simp only [reMatchAt, if_neg hne, if_pos rfl]
    rw [splitAtClose_of_not_mem hni rest]
    simp

theorem reFindAll_noise :
    ∀ n : List Char, NoiseOk n → ∀ rest : List Char,
      reFindAll (n ++ rest) = reFindAll rest := by
  intro n
  induction n with
  | nil => intro _ rest; rfl
  | cons a l ih =>
    intro hn rest
    obtain ⟨h1, h2⟩ := hn
    have ha1 : a ≠ '{' := by intro he; exact h1 (by simp [he])
    have ha2 : a ≠ '[' := by intro he; exact h2 (by simp [he])
    have hl : NoiseOk l :=
      ⟨fun hm => h1 (List.mem_cons_of_mem _ hm),
       fun hm => h2 (List.mem_cons_of_mem _ hm)⟩
    rw [List.cons_append, reFindAll_eq_skip (reMatchAt_noise ha1 ha2 _),
      ih hl rest]

theorem reFindAll_frag {f : List Char} (hf : FragOk f) (rest : List Char) :
    reFindAll (f ++ rest) = f :: reFindAll rest :=
  reFindAll_eq_match (reMatchAt_frag hf rest)

/-- A streaming payload: leading noise, then fragments each followed by
its trailing noise. -/
def buildPayload : List Char → List (List Char × List Char) → List Char
  | n0, [] => n0
  | n0, (f, n) :: rest => n0 ++ (f ++ buildPayload n rest)

theorem reFindAll_buildPayload :
    ∀ (segs : List (List Char × List Char)) (n0 : List Char), NoiseOk n0 →
      (∀ p ∈ segs, FragOk p.1 ∧ NoiseOk p.2) →
      reFindAll (buildPayload n0 segs) = segs.map (fun p => p.1) := by
  intro segs
  induction segs with
  | nil =>
    intro n0 h0 _
    have h := reFindAll_noise n0 h0 []
    simpa [buildPayload] using h
  | cons p rest ih =>
    intro n0 h0 hall
    obtain ⟨f, n⟩ := p
    obtain ⟨hf, hn⟩ := hall (f, n) (by simp)
    rw [buildPayload, reFindAll_noise n0 h0, reFindAll_frag hf,
      ih n hn (fun q hq => hall q (by simp [hq]))]
    simp

/-! ## Claim theorems -/

/-- **C6** (corrected).  First half of the claim, which holds in full:
for every JSONP wrapper `name(X)` (no `(` and no whitespace in the
callback name), extraction returns `X` exactly, for *every* interior `X`.
Second half, as amended: for a plain JSON object/array body extraction is
the identity when the first closing delimiter of the opening kind is the
final character (every flat body); for nested bodies the lazy regex stops
at the first closing delimiter instead (see the counterexample). -/
theorem extract_jsonp_identity
    (name X inner1 inner2 : List Char)
    (hname : ∀ c ∈ name, c ≠ '(' ∧ pySpace c = false)
    (h1 : '}' ∉ inner1) (h2 : ']' ∉ inner2) :
    extract_json_from_jsonp (name ++ '(' :: (X ++ [')'])) = some X ∧
    extract_json_from_jsonp ('{' :: (inner1 ++ ['}'])) =
      some ('{' :: (inner1 ++ ['}'])) ∧
    extract_json_from_jsonp ('[' :: (inner2 ++ [']'])) =
      some ('[' :: (inner2 ++ [']'])) := by
  refine ⟨?_, ?_, ?_⟩
  · have hsh : name ++ '(' :: (X ++ [')']) = (name ++ '(' :: X) ++ [')'] := by
      simp
    have hrev : (name ++ '(' :: (X ++ [')'])).reverse.head? = some ')' := by
      rw [hsh]; simp
    have hstrip : pyStrip (name ++ '(' :: (X ++ [')'])) =
        name ++ '(' :: (X ++ [')']) := by
      apply pyStrip_eq_self
      · intro c hc
        cases name with
        | nil =>
          simp at hc
          rw [← hc]; decide
        | cons a l =>
          simp at hc
          rw [← hc]; exact (hname a (by simp)).2
      · intro c hc
        rw [hrev] at hc
        simp at hc
        rw [← hc]; decide
    simp only [extract_json_from_jsonp, hstrip]
    rw [if_pos ⟨by simp, hrev⟩,
      afterChar_of_not_mem (fun x hx => (hname x hx).1) (X ++ [')'])]
    simp
  · have hrev : ('{' :: (inner1 ++ ['}'])).reverse.head? = some '}' := by
      rw [show '{' :: (inner1 ++ ['}']) = ('{' :: inner1) ++ ['}'] by simp]
      simp
    have hstrip : pyStrip ('{' :: (inner1 ++ ['}'])) =
        '{' :: (inner1 ++ ['}']) := by
      apply pyStrip_eq_self
      · intro c hc
        simp at hc
        rw [← hc]; decide
      · intro c hc
        rw [hrev] at hc
        simp at hc
        rw [← hc]; decide
    have hm : reMatchAt ('{' :: (inner1 ++ ['}'])) =
        some ('{' :: (inner1 ++ ['}']), []) := by
      have h := reMatchAt_frag
        (show FragOk ('{' :: (inner1 ++ ['}'])) from Or.inl ⟨inner1, rfl, h1⟩) []
      simpa using h
    simp only [extract_json_from_jsonp, hstrip]
    rw [if_neg (by
      rintro ⟨-, hb⟩
      rw [hrev] at hb
      simp at hb)]
    simp [reSearch, hm]
  · have hrev : ('[' :: (inner2 ++ [']'])).reverse.head? = some ']' := by
      rw [show '[' :: (inner2 ++ [']']) = ('[' :: inner2) ++ [']'] by simp]
      simp
    have hstrip : pyStrip ('[' :: (inner2 ++ [']'])) =
        '[' :: (inner2 ++ [']']) := by
      apply pyStrip_eq_self
      · intro c hc
        simp at hc
        rw [← hc]; decide
      · intro c hc
        rw [hrev] at hc
        simp at hc
        rw [← hc]; decide
    have hm : reMatchAt ('[' :: (inner2 ++ [']'])) =
        some ('[' :: (inner2 ++ [']']), []) := by
      have h := reMatchAt_frag
        (show FragOk ('[' :: (inner2 ++ [']'])) from Or.inr ⟨inner2, rfl, h2⟩) []
      simpa using h
    simp only [extract_json_from_jsonp, hstrip]
    rw [if_neg (by
      rintro ⟨-, hb⟩
      rw [hrev] at hb
      simp at hb)]
    simp [reSearch, hm]

/-- **C6** witness: the spec's own scenario
`cb(\x7b"ConnectionToken":"abc123"\x7d)` extracts to the wrapped object,
and flat plain bodies round-trip. -/
theorem extract_jsonp_identity_witness :
    extract_json_from_jsonp
        ("cb".data ++ '(' :: ("\x7b\"ConnectionToken\":\"abc123\"\x7d".data ++ [')'])) =
      some ("\x7b\"ConnectionToken\":\"abc123\"\x7d".data) ∧
    extract_json_from_jsonp ('{' :: ("\"a\":\"x\"".data ++ ['}'])) =
      some ('{' :: ("\"a\":\"x\"".data ++ ['}'])) ∧
    extract_json_from_jsonp ('[' :: ("true".data ++ [']'])) =
      some ('[' :: ("true".data ++ [']'])) :=
  extract_jsonp_identity "cb".data
    ("\x7b\"ConnectionToken\":\"abc123\"\x7d".data)
    ("\"a\":\"x\"".data) ("true".data)
    (by decide) (by decide) (by decide)

/-- **C6** counterexample to the claim as stated: the plain JSON body
`\x7b"a":\x7b"b":1\x7d\x7d` (nested object) is *not* returned identically —
the lazy regex cuts it at the first `\x7d`, yielding a proper prefix. -/
theorem extract_jsonp_not_identity_on_nested :
    extract_json_from_jsonp ("\x7b\"a\":\x7b\"b\":1\x7d\x7d".data) =
      some ("\x7b\"a\":\x7b\"b\":1\x7d".data) ∧
    "\x7b\"a\":\x7b\"b\":1\x7d".data ≠ "\x7b\"a\":\x7b\"b\":1\x7d\x7d".data := by
  exact ⟨by decide, by decide⟩

/-- **C7** (corrected).  For payloads built from *flat* valid-shape
fragments (first matching close delimiter last) interleaved with noise
containing no opening delimiter, the codec returns exactly one result per
fragment, in source order, parsing each fragment and preserving
unparseable ones as `\x7b"raw": fragment\x7d` placeholders.  (For nested
fragments the lazy regex splits them — see the counterexample.) -/
theorem parse_frame_interleaved
    (n0 : List Char) (segs : List (List Char × List Char))
    (h0 : NoiseOk n0) (hsegs : ∀ p ∈ segs, FragOk p.1 ∧ NoiseOk p.2) :
    parse_signalr_frame (buildPayload n0 segs) =
      segs.map (fun p => decodeFragment p.1) := by
  unfold parse_signalr_frame
  rw [reFindAll_buildPayload segs n0 h0 hsegs, List.map_map]
  rfl

/-- **C7** witness: two flat fragments amid noise decode to exactly two
results in order (an object and an array). -/
theorem parse_frame_interleaved_witness :
    parse_signalr_frame
        (buildPayload "noise: ".data
          [('{' :: ("\"a\":\"x\"".data ++ ['}']), " mid ".data),
           ('[' :: ("true".data ++ [']']), " tail".data)]) =
      [decodeFragment ('{' :: ("\"a\":\"x\"".data ++ ['}'])),
       decodeFragment ('[' :: ("true".data ++ [']']))] := by
  have h := parse_frame_interleaved "noise: ".data
    [('{' :: ("\"a\":\"x\"".data ++ ['}']), " mid ".data),
     ('[' :: ("true".data ++ [']']), " tail".data)]
    (by constructor <;> decide)
    (by
      intro p hp
      simp only [List.mem_cons, List.mem_singleton] at hp
      rcases hp with hp | hp | hp
      · subst hp
        exact ⟨Or.inl ⟨"\"a\":\"x\"".data, rfl, by decide⟩,
          by constructor <;> decide⟩
      · subst hp
        exact ⟨Or.inr ⟨"true".data, rfl, by decide⟩,
          by constructor <;> decide⟩
      · cases hp)
  simpa using h

/-- **C7** counterexample to the claim as stated: `[[1],[2]]` is a single
syntactically valid JSON fragment (N = 1, no noise), yet the codec
returns **2** results, because the lazy regex first matches the prefix
`[[1]` (kept as a raw placeholder) and then `[2]`. -/
theorem parse_frame_splits_nested :
    (jsonParse ("[[1],[2]]".data)).isSome = true ∧
    (parse_signalr_frame ("[[1],[2]]".data)).length = 2 := by
  exact ⟨rfl, rfl⟩

/-- **C3** (confirmed).  For every retry count `k` below the configured
ceiling and every jitter draw (`0 ≤ j ≤ 0.25 * base_delay`), the computed
delay lies in `[base * 2^k, base * 2^k * 1.25]` capped at `maxBackoff`,
and the delay is non-decreasing from retry `k` to retry `k + 1`
regardless of the two jitter draws. -/
theorem backoff_delay_bounds_monotone
    (maxB base : ℚ) (ceiling k : ℕ) (j j2 : ℚ)
    (hbase : 0 < base) (hbM : base ≤ maxB) (hk : k < ceiling)
    (hj0 : 0 ≤ j) (hj1 : j ≤ 1 / 4 * baseDelay maxB base k)
    (hj20 : 0 ≤ j2) (hj21 : j2 ≤ 1 / 4 * baseDelay maxB base (k + 1)) :
    min maxB (base * 2 ^ k) ≤ reconnectDelay maxB base k j ∧
    reconnectDelay maxB base k j ≤ min maxB (base * 2 ^ k * (5 / 4)) ∧
    reconnectDelay maxB base k j ≤ reconnectDelay maxB base (k + 1) j2 := by
  have hpow : (0 : ℚ) < 2 ^ k := by positivity
  have hb2k : (0 : ℚ) ≤ base * 2 ^ k := by positivity
  have hbd_le : baseDelay maxB base k ≤ base * 2 ^ k := min_le_right _ _
  have hbd_leM : baseDelay maxB base k ≤ maxB := min_le_left _ _
  have hsucc : base * 2 ^ (k + 1) = 2 * (base * 2 ^ k) := by ring
  refine ⟨?_, ?_, ?_⟩
  · exact le_min (min_le_left _ _) (le_add_of_nonneg_right hj0)
  · exact min_le_min le_rfl (by nlinarith)
  · apply le_min (min_le_left _ _)
    have hstep : reconnectDelay maxB base k j ≤ baseDelay maxB base (k + 1) := by
      apply le_min (min_le_left _ _)
      rw [hsucc]
      rcases le_total (base * 2 ^ k) maxB with hle | hge
      · have hbd : baseDelay maxB base k = base * 2 ^ k := min_eq_right hle
        have hmin := min_le_right maxB (baseDelay maxB base k + j)
        rw [hbd] at hj1 hmin ⊢
        nlinarith [hmin]
      · have hmin := min_le_left maxB (baseDelay maxB base k + j)
        nlinarith [hmin, hge]
    exact hstep.trans (le_add_of_nonneg_right hj20)

/-- **C3** witness at the code's configuration
(`backoff_base = 1.0`, `max_backoff = 30.0`, `max_retries = 2`), retry
count 0 and zero jitter. -/
theorem backoff_delay_bounds_monotone_witness :
    min (30 : ℚ) (1 * 2 ^ 0) ≤ reconnectDelay 30 1 0 0 ∧
    reconnectDelay 30 1 0 0 ≤ min (30 : ℚ) (1 * 2 ^ 0 * (5 / 4)) ∧
    reconnectDelay 30 1 0 0 ≤ reconnectDelay 30 1 (0 + 1) 0 :=
  backoff_delay_bounds_monotone 30 1 2 0 0 0 (by norm_num) (by norm_num)
    (by norm_num) le_rfl (by norm_num [baseDelay]) le_rfl
    (by norm_num [baseDelay])

/-- **C5** (confirmed).  An `on_error` immediately followed by an
`on_close` for the same fault produces exactly one reconnection episode:
the first event schedules (incrementing the retry counter once), the
second finds `_reconnect_lock` held and is a no-op apart from the
connected flags; and, generally, while a reconnection is pending
(`t.reconnectLockHeld`), `_schedule_reconnect` leaves the state unchanged
and schedules nothing; the one pending episode performs exactly one new
`start()` attempt when it fires. -/
theorem error_then_close_single_episode
    (s t : ClientState) (f : ClientState → ClientState)
    (hstop : s.stopFlag = false) (hlock : s.reconnectLockHeld = false)
    (hretry : s.retries < s.maxRetries)
    (ht1 : t.reconnectLockHeld = true) (ht2 : t.stopFlag = false) :
    (on_error s).2 = ScheduleOutcome.scheduled ∧
    (on_error s).1.retries = s.retries + 1 ∧
    (on_close (on_error s).1).2 = ScheduleOutcome.skippedPending ∧
    (on_close (on_error s).1).1 =
      { (on_error s).1 with connectedEvt := false, connected := false } ∧
    (schedule_reconnect t).1 = t ∧
    (schedule_reconnect t).2 = ScheduleOutcome.skippedPending ∧
    (reconnect_fire (on_error s).1 f).2 = true := by
  have hle : ¬ s.maxRetries ≤ s.retries := Nat.not_le.mpr hretry
  refine ⟨?_, ?_, ?_, ?_, ?_, ?_, ?_⟩ <;>
    simp [on_error, on_close, schedule_reconnect, reconnect_fire,
      hstop, hlock, hle, ht1, ht2]

/-- **C5** witness: a live client (retries 0, ceiling 2) hit by
`on_error` then `on_close`. -/
theorem error_then_close_single_episode_witness :
    (on_error ⟨false, true, true, 0, 2, false, false, true, false⟩).2 =
      ScheduleOutcome.scheduled ∧
    (on_error ⟨false, true, true, 0, 2, false, false, true, false⟩).1.retries = 0 + 1 ∧
    (on_close (on_error ⟨false, true, true, 0, 2, false, false, true, false⟩).1).2 =
      ScheduleOutcome.skippedPending ∧
    (on_close (on_error ⟨false, true, true, 0, 2, false, false, true, false⟩).1).1 =
      { (on_error ⟨false, true, true, 0, 2, false, false, true, false⟩).1 with
          connectedEvt := false, connected := false } ∧
    (schedule_reconnect ⟨false, false, false, 1, 2, true, false, true, false⟩).1 =
      ⟨false, false, false, 1, 2, true, false, true, false⟩ ∧
    (schedule_reconnect ⟨false, false, false, 1, 2, true, false, true, false⟩).2 =
      ScheduleOutcome.skippedPending ∧
    (reconnect_fire (on_error ⟨false, true, true, 0, 2, false, false, true, false⟩).1 id).2 =
      true :=
  error_then_close_single_episode
    ⟨false, true, true, 0, 2, false, false, true, false⟩
    ⟨false, false, false, 1, 2, true, false, true, false⟩ id
    rfl rfl (by decide) rfl rfl

/-- **C8** (confirmed).  After `stop()`: a pending backoff thread wakes,
sees `_stop`, performs **no** further `start()` (hence no negotiate) and
releases its lock; any later `_schedule_reconnect` (from straggling
events) is suppressed with the state unchanged; `stop()` itself raises
nothing (`escaped = none`), its effect is independent of whether the
underlying `ws.close()` / `session.close()` raise or the ws object is
absent, and it is idempotent.  (The bounded-time part of the claim is the
2-second `join` timeout and the immediate `_stop` flag write, both
structural in `stop`.) -/
theorem stop_cancels_pending_reconnect
    (s : ClientState) (b1 b2 b3 b4 : Bool) (f : ClientState → ClientState) :
    (reconnect_fire (stop_run b1 b2 s).1 f).2 = false ∧
    (reconnect_fire (stop_run b1 b2 s).1 f).1.reconnectLockHeld = false ∧
    schedule_reconnect (stop_run b1 b2 s).1 =
      ((stop_run b1 b2 s).1, ScheduleOutcome.skippedStopped) ∧
    (stop_run b1 b2 s).2 = none ∧
    stop_run b1 b2 s = stop_run b3 b4 s ∧
    stop_run b1 b2 (stop_run b3 b4 s).1 = stop_run b3 b4 s := by
  cases hw : s.wsPresent <;>
    refine ⟨?_, ?_, ?_, ?_, ?_, ?_⟩ <;>
      simp [stop_run, reconnect_fire, schedule_reconnect, hw]

/-- **C9** (confirmed).  Whenever the raw frame decodes, `on_message`
lets no exception escape (`escaped = none`) — in particular a raising
`handler.handle` is caught; when the handler does raise on a dispatched
object, the `[handler error]` log line runs and the message was still
dispatched exactly once.  (Only a `json.loads` failure on the raw frame
itself, which happens before the guarded handler call, can escape.) -/
theorem dispatcher_exception_contained
    (h : Json → Except (List Char) Unit) (message : List Char) (item : Json)
    (e : List Char) (hp : jsonParse message = some item) :
    (on_message (some h) message).escaped = none ∧
    (h item = .error e → isObj item = true →
      (on_message (some h) message).handlerErrorLogged = true ∧
      (on_message (some h) message).dispatched = [item]) := by
  unfold on_message
  rw [hp]
  constructor
  · cases hobj : isObj item <;> simp [hobj] <;> cases hh : h item <;> simp
  · intro he hobj
    simp [hobj, he]

/-- **C9** witness: a handler that always raises, on an object frame. -/
theorem dispatcher_exception_contained_witness :
    (on_message (some fun _ => Except.error "boom".data)
        ("\x7b\"a\":\"x\"\x7d".data)).escaped = none ∧
    ((fun _ => Except.error "boom".data : Json → Except (List Char) Unit)
          (Json.obj [("a".data, Json.str "x".data)]) = .error "boom".data →
      isObj (Json.obj [("a".data, Json.str "x".data)]) = true →
      (on_message (some fun _ => Except.error "boom".data)
          ("\x7b\"a\":\"x\"\x7d".data)).handlerErrorLogged = true ∧
      (on_message (some fun _ => Except.error "boom".data)
          ("\x7b\"a\":\"x\"\x7d".data)).dispatched =
        [Json.obj [("a".data, Json.str "x".data)]]) :=
  dispatcher_exception_contained (fun _ => Except.error "boom".data)
    ("\x7b\"a\":\"x\"\x7d".data) (Json.obj [("a".data, Json.str "x".data)])
    "boom".data rfl

/-- **C10** (confirmed).  `on_message` dispatches only when the frame
parses (by one `json.loads` over the whole text) to a JSON *object*: on
a top-level array, string, number, boolean or null the message is logged
but the handler is never invoked; and on every frame whatsoever the
handler is invoked at most once. -/
theorem dispatch_only_on_objects
    (hopt g : Option (Json → Except (List Char) Unit))
    (message m : List Char) (item : Json)
    (hp : jsonParse message = some item) (hno : isObj item = false) :
    (on_message hopt message).dispatched = [] ∧
    (on_message hopt message).logged = true ∧
    (on_message g m).dispatched.length ≤ 1 := by
  refine ⟨?_, ?_, ?_⟩
  · unfold on_message
    rw [hp]
    cases hopt <;> simp [hno]
  · unfold on_message
    rw [hp]
    cases hopt <;> simp [hno]
  · unfold on_message
    cases jsonParse m with
    | none => simp
    | some v =>
      cases g with
      | none => simp
      | some h =>
        cases hobj : isObj v <;> simp [hobj] <;> cases hh : h v <;> simp

/-- **C10** witness: a top-level array frame is logged but not
dispatched, and an object frame is dispatched exactly once. -/
theorem dispatch_only_on_objects_witness :
    (on_message (some fun _ => Except.ok ()) ("[true]".data)).dispatched = [] ∧
    (on_message (some fun _ => Except.ok ()) ("[true]".data)).logged = true ∧
    (on_message (some fun _ => Except.ok ())
        ("\x7b\"a\":\"x\"\x7d".data)).dispatched.length ≤ 1 :=
  dispatch_only_on_objects (some fun _ => Except.ok ())
    (some fun _ => Except.ok ()) ("[true]".data)
    ("\x7b\"a\":\"x\"\x7d".data) (Json.arr [Json.bool true]) rfl rfl

/-- Success of the token extraction on an object record is exactly
truthiness of one of the two accepted fields. -/
theorem start_token_isOk (kvs : List (List Char × Json)) :
    exceptIsOk (start_token (Json.obj kvs)) =
      (pyTruthyOpt (objGet kvs ctKey) || pyTruthyOpt (objGet kvs cidKey)) := by
  have hred : start_token (Json.obj kvs) =
      (match (if pyTruthyOpt (objGet kvs ctKey) then objGet kvs ctKey
        else objGet kvs cidKey) with
      | some v =>
        if pyTruthy v then Except.ok v
        else Except.error
          (.runtimeError "negotiate response missing ConnectionToken".data)
      | none => Except.error
          (.runtimeError "negotiate response missing ConnectionToken".data)) := rfl
  rw [hred]
  generalize objGet kvs ctKey = A
  generalize objGet kvs cidKey = B
  cases A with
  | some v =>
    by_cases hv : pyTruthy v
    · simp [pyTruthyOpt, hv, exceptIsOk]
    · cases B with
      | some w =>
        by_cases hw : pyTruthy w
        · simp [pyTruthyOpt, hv, hw, exceptIsOk]
        · simp [pyTruthyOpt, hv, hw, exceptIsOk]
      | none => simp [pyTruthyOpt, hv, exceptIsOk]
  | none =>
    cases B with
    | some w =>
      by_cases hw : pyTruthy w
      · simp [pyTruthyOpt, hw, exceptIsOk]
      · simp [pyTruthyOpt, hw, exceptIsOk]
    | none => simp [pyTruthyOpt, exceptIsOk]

/-- **C1** (corrected).  Negotiation (plus the token extraction in
`start`) succeeds *exactly* when the status is exactly **200** (not any
2xx), a nonempty payload is extracted, it parses as a JSON object, and a
truthy value sits under `ConnectionToken` or `ConnectionId`; and on any
non-200 status it fails with the `RuntimeError` carrying the status and
a 300-character body prefix.  (Every failure is an exception value that
the `except Exception` in `start` catches, so no crash escapes.) -/
theorem negotiate_success_characterisation (status : ℕ) (text : List Char) :
    exceptIsOk (negotiate_token status text) = negotiateSuccessSpec status text ∧
    (status ≠ 200 →
      negotiate_token status text =
        .error (.runtimeError
          ("negotiate failed: ".data ++ negotiateFailMsg status text))) := by
  constructor
  · unfold negotiate_token do_negotiate negotiateSuccessSpec
    by_cases hs : status = 200
    · subst hs
      simp only [ne_eq, not_true_eq_false, if_false, decide_True, Bool.true_and]
      split
      · rfl
      · rename_i body heqx
        split
        · rename_i hb
          rw [hb]
          rfl
        · rename_i hb
          have hf : body.isEmpty = false := by
            rwa [Bool.not_eq_true] at hb
          rw [hf]
          split
          · rfl
          · rename_i j heqj
            cases j with
            | null => rfl
            | bool b => rfl
            | num q => rfl
            | str s1 => rfl
            | arr xs => rfl
            | obj kvs => exact start_token_isOk kvs
    · rw [if_pos hs, show decide (status = 200) = false from decide_eq_false hs,
        Bool.false_and]
      rfl
  · intro hs
    unfold negotiate_token do_negotiate
    rw [if_pos hs]
    rfl

/-- **C1** witness: a 404 response fails with the status-carrying error
and is classified unsuccessful by the characterisation. -/
theorem negotiate_success_characterisation_witness :
    exceptIsOk (negotiate_token 404 "Server Error".data) =
      negotiateSuccessSpec 404 "Server Error".data ∧
    negotiate_token 404 "Server Error".data =
      .error (.runtimeError
        ("negotiate failed: ".data ++ negotiateFailMsg 404 "Server Error".data)) :=
  ⟨(negotiate_success_characterisation 404 "Server Error".data).1,
   (negotiate_success_characterisation 404 "Server Error".data).2 (by decide)⟩

/-- **C1** counterexample to the claim as stated: status **201** is 2xx,
the body decodes, and the `ConnectionToken` field is present — the claim
says negotiation succeeds — yet the code raises, because it tests
`status_code != 200`, not "2xx". -/
theorem negotiate_rejects_201 :
    claimC1_spec 201 ("\x7b\"ConnectionToken\":\"abc\"\x7d".data) = true ∧
    exceptIsOk (negotiate_token 201 ("\x7b\"ConnectionToken\":\"abc\"\x7d".data)) =
      false := by
  exact ⟨rfl, rfl⟩

/-- **C2** (corrected).  `start()` never calls `_schedule_reconnect`: a
handshake error is caught and logged (`exit = exnLogged`), an open
timeout closes the socket and returns, a start-call transport error is
caught and logged — in all three cases `start` simply returns with no
reconnection scheduled and `Live` not reached.  Reconnection is
scheduled only from the session events (`on_error` / `on_close`), as the
final conjunct shows. -/
theorem start_failures_logged_not_rescheduled
    (env : StartEnv) (s t : ClientState) (e : PyError)
    (ht1 : t.stopFlag = false) (ht2 : t.reconnectLockHeld = false)
    (ht3 : t.retries < t.maxRetries) :
    (start_run env s).scheduledReconnect = false ∧
    (env.negotiateResult = .error e →
      (start_run env s).exit = .exnLogged e ∧
      (start_run env s).liveConfirmed = false) ∧
    (env.opensInTime = false → (start_run env s).liveConfirmed = false) ∧
    (env.startCallResult = .error e →
      (start_run env s).liveConfirmed = false) ∧
    (on_error t).2 = ScheduleOutcome.scheduled := by
  obtain ⟨nr, oit, scr⟩ := env
  refine ⟨?_, ?_, ?_, ?_, ?_⟩
  · cases nr with
    | error e2 => rfl
    | ok n =>
      cases ht : start_token n with
      | error e2 => simp [start_run, ht]
      | ok tok =>
        cases oit with
        | false => simp [start_run, ht]
        | true =>
          cases scr with
          | error e2 => simp [start_run, ht]
          | ok st => simp [start_run, ht]
  · intro hne
    simp only at hne
    subst hne
    exact ⟨rfl, rfl⟩
  · intro hoit
    simp only at hoit
    subst hoit
    cases nr with
    | error e2 => rfl
    | ok n =>
      cases ht : start_token n with
      | error e2 => simp [start_run, ht]
      | ok tok => simp [start_run, ht]
  · intro hscr
    simp only at hscr
    subst hscr
    cases nr with
    | error e2 => rfl
    | ok n =>
      cases ht : start_token n with
      | error e2 => simp [start_run, ht]
      | ok tok =>
        cases oit with
        | false => simp [start_run, ht]
        | true => simp [start_run, ht]
  · have hle : ¬ t.maxRetries ≤ t.retries := Nat.not_le.mpr ht3
    simp [on_error, schedule_reconnect, ht1, ht2, hle]

/-- **C2** witness: a failing handshake environment and a schedulable
session state. -/
theorem start_failures_logged_not_rescheduled_witness :
    (start_run ⟨.error (.runtimeError "connection refused".data), false,
        .error (.runtimeError "connection refused".data)⟩
      ⟨false, false, false, 0, 2, false, false, false, false⟩).scheduledReconnect =
        false ∧
    ((.error (.runtimeError "connection refused".data) : Except PyError Json) =
        .error (.runtimeError "connection refused".data) →
      (start_run ⟨.error (.runtimeError "connection refused".data), false,
          .error (.runtimeError "connection refused".data)⟩
        ⟨false, false, false, 0, 2, false, false, false, false⟩).exit =
          .exnLogged (.runtimeError "connection refused".data) ∧
      (start_run ⟨.error (.runtimeError "connection refused".data), false,
          .error (.runtimeError "connection refused".data)⟩
        ⟨false, false, false, 0, 2, false, false, false, false⟩).liveConfirmed =
          false) ∧
    ((false : Bool) = false →
      (start_run ⟨.error (.runtimeError "connection refused".data), false,
          .error (.runtimeError "connection refused".data)⟩
        ⟨false, false, false, 0, 2, false, false, false, false⟩).liveConfirmed =
          false) ∧
    ((.error (.runtimeError "connection refused".data) : Except PyError ℕ) =
        .error (.runtimeError "connection refused".data) →
      (start_run ⟨.error (.runtimeError "connection refused".data), false,
          .error (.runtimeError "connection refused".data)⟩
        ⟨false, false, false, 0, 2, false, false, false, false⟩).liveConfirmed =
          false) ∧
    (on_error ⟨false, true, true, 0, 2, false, false, true, false⟩).2 =
      ScheduleOutcome.scheduled :=
  start_failures_logged_not_rescheduled
    ⟨.error (.runtimeError "connection refused".data), false,
      .error (.runtimeError "connection refused".data)⟩
    ⟨false, false, false, 0, 2, false, false, false, false⟩
    ⟨false, true, true, 0, 2, false, false, true, false⟩
    (.runtimeError "connection refused".data) rfl rfl (by decide)

/-- **C2** counterexample to the claim as stated: with the handshake
raising, `start()` leaves the client state exactly as it was — no
reconnection is scheduled (`scheduledReconnect = false`, lock not held,
retries unchanged), the failure is merely logged, contradicting
"the Supervisor transitions to Reconnecting with the reason recorded". -/
theorem start_handshake_failure_stops_silently :
    (start_run ⟨.error (.runtimeError "connection refused".data), false,
        .error (.runtimeError "connection refused".data)⟩
      ⟨false, false, false, 0, 2, false, false, false, false⟩).scheduledReconnect =
        false ∧
    (start_run ⟨.error (.runtimeError "connection refused".data), false,
        .error (.runtimeError "connection refused".data)⟩
      ⟨false, false, false, 0, 2, false, false, false, false⟩).exit =
      .exnLogged (.runtimeError "connection refused".data) ∧
    (start_run ⟨.error (.runtimeError "connection refused".data), false,
        .error (.runtimeError "connection refused".data)⟩
      ⟨false, false, false, 0, 2, false, false, false, false⟩).state =
      ⟨false, false, false, 0, 2, false, false, false, false⟩ := by
  exact ⟨rfl, rfl, rfl⟩

/-- One failed reconnection attempt: a schedule (when it schedules)
followed by the backoff thread running `start()` against a failing
handshake and releasing the lock. -/
theorem failedAttempt_step (s : ClientState)
    (h1 : s.stopFlag = false) (h2 : s.reconnectLockHeld = false) :
    (failedAttempt s).stopFlag = false ∧
    (failedAttempt s).reconnectLockHeld = false ∧
    (failedAttempt s).maxRetries = s.maxRetries ∧
    (failedAttempt s).retries =
      (if s.retries < s.maxRetries then s.retries + 1 else s.retries) := by
  unfold failedAttempt
  by_cases hr : s.maxRetries ≤ s.retries
  · have hlt : ¬ s.retries < s.maxRetries := by omega
    simp [schedule_reconnect, h1, h2, hr, hlt]
  · have hlt : s.retries < s.maxRetries := by omega
    simp [schedule_reconnect, h1, h2, hr, hlt, reconnect_fire, start_run]

theorem failedAttempt_iterate (s : ClientState)
    (h1 : s.stopFlag = false) (h2 : s.reconnectLockHeld = false)
    (h3 : s.retries = 0) :
    ∀ k : ℕ, (failedAttempt^[k] s).stopFlag = false ∧
      (failedAttempt^[k] s).reconnectLockHeld = false ∧
      (failedAttempt^[k] s).maxRetries = s.maxRetries ∧
      (failedAttempt^[k] s).retries = min k s.maxRetries := by
  intro k
  induction k with
  | zero => exact ⟨h1, h2, rfl, by simp [h3]⟩
  | succ n ih =>
    obtain ⟨i1, i2, i3, i4⟩ := ih
    rw [Function.iterate_succ_apply']
    obtain ⟨j1, j2, j3, j4⟩ := failedAttempt_step _ i1 i2
    refine ⟨j1, j2, j3.trans i3, ?_⟩
    rw [j4, i4, i3]
    split <;> omega

/-- **C4** (corrected).  The retry counter resets to 0 on each
`on_open` — the WebSocket **Open** event, which precedes the
confirmatory start call, so not only on `Live` (see the counterexample);
it increases by exactly 1 on each scheduled reconnection, at schedule
time, before the backoff sleep; and on every non-scheduling call it is
unchanged.  After `maxRetries` consecutive failed attempts with no
intervening open (and on every attempt thereafter) the counter sits at
`maxRetries` and `_schedule_reconnect` answers give-up with the state
unchanged — no further automatic attempt is ever scheduled. -/
theorem retry_counter_discipline (t s : ClientState) (m : ℕ)
    (h1 : s.stopFlag = false) (h2 : s.reconnectLockHeld = false)
    (h3 : s.retries = 0) :
    (on_open t).retries = 0 ∧
    ((schedule_reconnect t).2 = ScheduleOutcome.scheduled →
      (schedule_reconnect t).1.retries = t.retries + 1) ∧
    ((schedule_reconnect t).2 ≠ ScheduleOutcome.scheduled →
      (schedule_reconnect t).1.retries = t.retries) ∧
    (failedAttempt^[s.maxRetries + m] s).retries = s.maxRetries ∧
    (schedule_reconnect (failedAttempt^[s.maxRetries + m] s)).2 =
      ScheduleOutcome.gaveUp ∧
    (schedule_reconnect (failedAttempt^[s.maxRetries + m] s)).1 =
      failedAttempt^[s.maxRetries + m] s := by
  obtain ⟨i1, i2, i3, i4⟩ := failedAttempt_iterate s h1 h2 h3 (s.maxRetries + m)
  have hret : (failedAttempt^[s.maxRetries + m] s).retries = s.maxRetries := by
    rw [i4]; omega
  have hge : (failedAttempt^[s.maxRetries + m] s).maxRetries ≤
      (failedAttempt^[s.maxRetries + m] s).retries := by
    rw [hret, i3]
  refine ⟨rfl, ?_, ?_, hret, ?_, ?_⟩
  · unfold schedule_reconnect
    by_cases a : t.stopFlag <;> by_cases b : t.reconnectLockHeld <;>
      by_cases c : t.maxRetries ≤ t.retries <;> simp [a, b, c]
  · unfold schedule_reconnect
    by_cases a : t.stopFlag <;> by_cases b : t.reconnectLockHeld <;>
      by_cases c : t.maxRetries ≤ t.retries <;> simp [a, b, c]
  · unfold schedule_reconnect
    simp [i1, i2, hge]
  · unfold schedule_reconnect
    simp [i1, i2, hge]

/-- **C4** witness at the code's configuration (`max_retries = 2`),
2 + 1 consecutive failed attempts from a fresh counter. -/
theorem retry_counter_discipline_witness :
    (on_open ⟨false, false, false, 1, 2, false, false, true, false⟩).retries = 0 ∧
    ((schedule_reconnect ⟨false, false, false, 1, 2, false, false, true, false⟩).2 =
        ScheduleOutcome.scheduled →
      (schedule_reconnect
          ⟨false, false, false, 1, 2, false, false, true, false⟩).1.retries = 1 + 1) ∧
    ((schedule_reconnect ⟨false, false, false, 1, 2, false, false, true, false⟩).2 ≠
        ScheduleOutcome.scheduled →
      (schedule_reconnect
          ⟨false, false, false, 1, 2, false, false, true, false⟩).1.retries = 1) ∧
    (failedAttempt^[2 + 1]
        ⟨false, false, false, 0, 2, false, false, false, false⟩).retries = 2 ∧
    (schedule_reconnect (failedAttempt^[2 + 1]
        ⟨false, false, false, 0, 2, false, false, false, false⟩)).2 =
      ScheduleOutcome.gaveUp ∧
    (schedule_reconnect (failedAttempt^[2 + 1]
        ⟨false, false, false, 0, 2, false, false, false, false⟩)).1 =
      failedAttempt^[2 + 1] ⟨false, false, false, 0, 2, false, false, false, false⟩ :=
  retry_counter_discipline
    ⟨false, false, false, 1, 2, false, false, true, false⟩
    ⟨false, false, false, 0, 2, false, false, false, false⟩ 1 rfl rfl rfl

/-- **C4** counterexample to the claim as stated: the counter resets on
`Open`, not "exactly on each transition into Live".  With the socket
opening but the confirmatory start call then raising, `Live` is never
reached (`liveConfirmed = false`), yet the counter was reset from 1
to 0. -/
theorem retry_reset_without_live :
    (start_run ⟨.ok (Json.obj [("ConnectionToken".data, Json.str "tok".data)]),
        true, .error (.runtimeError "start call failed".data)⟩
      ⟨false, false, false, 1, 2, true, false, false, false⟩).state.retries = 0 ∧
    (start_run ⟨.ok (Json.obj [("ConnectionToken".data, Json.str "tok".data)]),
        true, .error (.runtimeError "start call failed".data)⟩
      ⟨false, false, false, 1, 2, true, false, false, false⟩).liveConfirmed =
      false := by
  exact ⟨rfl, rfl⟩

end FJ
